import Mathlib

/-
Verification of the Daikin Skyport client
(custom_components/daikinskyport/daikinskyport.py).

The development shallowly embeds the Python module:

  * JSON values are the inductive type `JVal`; Python dicts are ordered
    association lists (`Dict`), matching CPython's insertion-ordered dicts.
  * The device-list reconciliation loop of `DaikinSkyport.get_thermostats`
    (lines 132-142) is transcribed as the pure function `runListDevices`
    (success path: every detail fetch returns a payload).
  * The stateful operations (`request_tokens`, `refresh_tokens`,
    `get_thermostats`, `get_thermostat_info`, `make_request`, the `set_*`
    command dispatchers) are transcribed as explicit state-passing functions
    over a `Session` record and a list of transport responses (`HResp`),
    consumed one per HTTP round trip.  Python exceptions are the explicit
    outcome `Outcome.exc`; a `None` return is `Outcome.ret JVal.null`.
  * Numbers are rationals; Python `round(x, 1)` is `round1` (round to the
    nearest tenth).  Float-specific tie-breaking is not modelled; no claim
    below depends on behaviour at a rounding tie.
-/

/-- JSON values, the value domain of the embedded Python code. -/
inductive JVal where
  | null : JVal
  | bool : Bool → JVal
  | num : ℚ → JVal
  | str : String → JVal
  | arr : List JVal → JVal
  | obj : List (String × JVal) → JVal

/-- Boolean equality on JSON values (Python `==` on JSON data). -/
def JVal.beq : JVal → JVal → Bool
  | .null, .null => true
  | .bool a, .bool b => a = b
  | .num a, .num b => a = b
  | .str a, .str b => a = b
  | .arr a, .arr b => beqArr a b
  | .obj a, .obj b => beqObj a b
  | _, _ => false
where
  beqArr : List JVal → List JVal → Bool
    | [], [] => true
    | x :: xs, y :: ys => JVal.beq x y && beqArr xs ys
    | _, _ => false
  beqObj : List (String × JVal) → List (String × JVal) → Bool
    | [], [] => true
    | p :: xs, q :: ys => (p.1 = q.1 : Bool) && JVal.beq p.2 q.2 && beqObj xs ys
    | _, _ => false

def JVal.beq_iff : ∀ a b : JVal, (JVal.beq a b = true) ↔ a = b
  | .null, b => by cases b <;> simp [JVal.beq]
  | .bool a, b => by cases b <;> simp [JVal.beq]
  | .num a, b => by cases b <;> simp [JVal.beq]
  | .str a, b => by cases b <;> simp [JVal.beq]
  | .arr a, b => by
      cases b <;> simp only [JVal.beq, Bool.false_eq_true, false_iff] <;>
        try (intro h; exact JVal.noConfusion h)
      next bs =>
        rw [beqArr_iff a bs]
        constructor
        · intro h; rw [h]
        · intro h; injection h
  | .obj a, b => by
      cases b <;> simp only [JVal.beq, Bool.false_eq_true, false_iff] <;>
        try (intro h; exact JVal.noConfusion h)
      next bs =>
        rw [beqObj_iff a bs]
        constructor
        · intro h; rw [h]
        · intro h; injection h
where
  beqArr_iff : ∀ xs ys : List JVal, (JVal.beq.beqArr xs ys = true) ↔ xs = ys
    | [], [] => by simp [JVal.beq.beqArr]
    | [], _ :: _ => by simp [JVal.beq.beqArr]
    | _ :: _, [] => by simp [JVal.beq.beqArr]
    | x :: xs, y :: ys => by
        simp only [JVal.beq.beqArr, Bool.and_eq_true, JVal.beq_iff x y,
          beqArr_iff xs ys, List.cons.injEq]
  beqObj_iff : ∀ xs ys : List (String × JVal), (JVal.beq.beqObj xs ys = true) ↔ xs = ys
    | [], [] => by simp [JVal.beq.beqObj]
    | [], _ :: _ => by simp [JVal.beq.beqObj]
    | _ :: _, [] => by simp [JVal.beq.beqObj]
    | p :: xs, q :: ys => by
        simp only [JVal.beq.beqObj, Bool.and_eq_true, JVal.beq_iff p.2 q.2,
          beqObj_iff xs ys, List.cons.injEq, decide_eq_true_eq]
        constructor
        · rintro ⟨⟨h1, h2⟩, h3⟩
          exact ⟨Prod.ext h1 h2, h3⟩
        · rintro ⟨h, h3⟩
          exact ⟨⟨congrArg Prod.fst h, congrArg Prod.snd h⟩, h3⟩

instance : DecidableEq JVal := fun a b => decidable_of_iff _ (JVal.beq_iff a b)

/-- Python dict: an insertion-ordered association list of string keys. -/
abbrev Dict := List (String × JVal)

/-- Reading `d[k]` from a dict, as an `Option` (first binding wins; dicts
produced by the model keep keys unique, as real Python dicts do). -/
def getField : Dict → String → Option JVal
  | [], _ => none
  | p :: d, k => if p.1 = k then some p.2 else getField d k

/-- Python dict assignment `d[k] = v`: update the existing binding in place
(keeping its position) or append a new binding at the end, exactly as a
CPython dict mutates.  On the (un-Pythonic) association lists with a
duplicated key only the first binding — the one `getField` reads — is
updated. -/
def dictSet : Dict → String → JVal → Dict
  | [], k, v => [(k, v)]
  | p :: d, k, v => if p.1 = k then (k, v) :: d else p :: dictSet d k v

/-- Python truthiness of a JSON value (used by `if config:` in
`config_from_file` and `if self.refresh_tokens():` in the retry paths). -/
def truthy : JVal → Bool
  | .null => false
  | .bool b => b
  | .num q => decide (q ≠ 0)
  | .str s => decide (s ≠ "")
  | .arr l => !l.isEmpty
  | .obj d => !d.isEmpty

/-- One element of the remote `/devices` list, projected to the two fields the
loop reads (`thermostat['id']`, `thermostat['name']`). -/
structure Entry where
  id : JVal
  name : JVal

/-- Detail payload merged with the index entry:
`thermostat_info['name'] = thermostat['name']; thermostat_info['id'] = thermostat['id']`. -/
def mkInfo (payload : Dict) (nameV idV : JVal) : Dict :=
  dictSet (dictSet payload "name" nameV) "id" idV

/-- Whether some cache entry has id field equal to `x`
(the inner `for index in range(...)` scan finds a match). -/
def hasId (x : JVal) (c : List Dict) : Bool :=
  c.any (fun d => getField d "id" = some x)

/-- The inner scan plus conditional append: replace every entry whose `id`
equals `x` (the scan does not break, so all matches are overwritten), else
append. -/
def upsert (x : JVal) (info : Dict) (c : List Dict) : List Dict :=
  if hasId x c then
    c.map (fun d => if getField d "id" = some x then info else d)
  else
    c ++ [info]

/-- One iteration of the outer `for thermostat in self.thermostatlist` loop. -/
def processDevice (details : JVal → Dict) (c : List Dict) (e : Entry) : List Dict :=
  upsert e.id (mkInfo (details e.id) e.name e.id) c

/-- The whole reconciliation loop of a successful `get_thermostats` call. -/
def runListDevices (details : JVal → Dict) (remote : List Entry) (c : List Dict) :
    List Dict :=
  remote.foldl (processDevice details) c

/-- Sequence of id fields of the cache entries. -/
def ids (c : List Dict) : List (Option JVal) :=
  c.map (fun d => getField d "id")

/-- Last element of `remote` whose id equals the given id value, i.e. the
device whose merged payload wins the upsert for that id. -/
def lastOcc : List Entry → Option JVal → Option Entry
  | [], _ => none
  | e :: r, x =>
    match lastOcc r x with
    | some w => some w
    | none => if some e.id = x then some e else none

/-- A sequence of successful reconciliation passes, each with its own detail
payloads and remote list (`update()` / `get_thermostats()` called repeatedly). -/
def runCalls (calls : List ((JVal → Dict) × List Entry)) (cs : List Dict) :
    List Dict :=
  calls.foldl (fun acc p => runListDevices p.1 p.2 acc) cs

/-
Stateful model of the session.  Each operation consumes transport responses
from a list (`HResp`), one per HTTP round trip, threads the mutable object
state (`Session`), and records every HTTP request it issues (`Req`).  The
unbounded retry recursion of `get_thermostats` / `get_thermostat_info` is
driven by a fuel parameter; `Outcome.stuck` marks exhaustion of fuel or of the
response list (an artifact of the finite model, never reached when the fuel
and trace cover the run).
-/

/-- Python exceptions that the module can raise. -/
inductive PyErr where
  | requestException : PyErr
  | keyError : PyErr
  | typeError : PyErr
  | indexError : PyErr
deriving DecidableEq

/-- Result of one HTTP round trip as seen by the client: a transport-level
exception (`requests.exceptions.RequestException`), a response with
`status_code == requests.codes.ok`, or a response with another status code. -/
inductive HResp where
  | exn : HResp
  | ok : JVal → HResp
  | err : ℕ → JVal → HResp

/-- An HTTP request issued by the client (the request log of a run). -/
inductive Req where
  | login : Req
  | refreshTok : Req
  | getDevices : Req
  | getDetail : JVal → Req
  | putDevice : JVal → JVal → Req

/-- How an operation finishes: a Python return value, an uncaught Python
exception, or exhaustion of the finite model. -/
inductive Outcome where
  | ret : JVal → Outcome
  | exc : PyErr → Outcome
  | stuck : Outcome

/-- Mutable state of a `DaikinSkyport` object, plus the persisted credential
mapping (the config collaborator written by `write_tokens_to_file`). -/
structure Session where
  thermostats : List Dict
  thermostatlist : JVal
  authenticated : Bool
  user_email : JVal
  access_token : JVal
  refresh_token : JVal
  savedConfig : Dict

/-- Result of running one operation: outcome, final state, remaining
transport responses, and the requests issued (in order). -/
structure Res where
  out : Outcome
  sess : Session
  rem : List HResp
  log : List Req

/-- Python `v[k]` subscription on a JSON value: `KeyError` on a missing dict
key, `TypeError` on subscripting a non-dict (e.g. `None['name']`). -/
def subscr (v : JVal) (k : String) : Except PyErr JVal :=
  match v with
  | .obj d =>
    match getField d k with
    | some x => .ok x
    | none => .error .keyError
  | _ => .error .typeError

/-- Python `l[v]` on a list: `TypeError` unless the index is an integer,
`IndexError` when out of range (negative indices, unused by the module, are
also mapped to `IndexError`). -/
def listSubscr (l : List Dict) (v : JVal) : Except PyErr Dict :=
  match v with
  | .num q =>
    if q.den = 1 then
      if 0 ≤ q.num then
        match l[q.num.toNat]? with
        | some d => .ok d
        | none => .error .indexError
      else .error .indexError
    else .error .typeError
  | _ => .error .typeError

/-- Transcription of `write_tokens_to_file` (lines 213-222): both the
file-based and the in-memory branch store the same three-field credential
mapping; the model keeps it in `savedConfig`. -/
def write_tokens_to_file (s : Session) : Session :=
  { s with savedConfig :=
      [("ACCESS_TOKEN", s.access_token), ("REFRESH_TOKEN", s.refresh_token),
       ("EMAIL", s.user_email)] }

/-- Transcription of `request_tokens` (lines 80-102).  The POST to the login
endpoint is guarded by try/except, so a transport exception is caught and the
method returns `None`; missing JSON keys raise `KeyError`. -/
def request_tokens (s : Session) (tr : List HResp) : Res :=
  match tr with
  | [] => ⟨.stuck, s, [], [.login]⟩
  | .exn :: rest => ⟨.ret .null, s, rest, [.login]⟩
  | .ok body :: rest =>
    match subscr body "accessToken" with
    | .error e => ⟨.exc e, s, rest, [.login]⟩
    | .ok atk =>
      let s1 := { s with access_token := atk }
      match subscr body "refreshToken" with
      | .error e => ⟨.exc e, s1, rest, [.login]⟩
      | .ok rtk =>
        let s2 := { s1 with refresh_token := rtk }
        if rtk = .null then ⟨.ret .null, s2, rest, [.login]⟩
        else ⟨.ret .null, write_tokens_to_file s2, rest, [.login]⟩
  | .err _ _ :: rest => ⟨.ret .null, s, rest, [.login]⟩

/-- Transcription of `refresh_tokens` (lines 104-117).  The POST to the token
endpoint is NOT guarded by try/except: a transport exception propagates.  On
success the method returns `True`; on a non-ok status it falls back to
`request_tokens` and returns `None` (the implicit Python return). -/
def refresh_tokens (s : Session) (tr : List HResp) : Res :=
  match tr with
  | [] => ⟨.stuck, s, [], [.refreshTok]⟩
  | .exn :: rest => ⟨.exc .requestException, s, rest, [.refreshTok]⟩
  | .ok body :: rest =>
    match subscr body "accessToken" with
    | .error e => ⟨.exc e, s, rest, [.refreshTok]⟩
    | .ok atk =>
      ⟨.ret (.bool true), write_tokens_to_file { s with access_token := atk },
        rest, [.refreshTok]⟩
  | .err _ _ :: rest =>
    let r := request_tokens s rest
    match r.out with
    | .ret _ => ⟨.ret .null, r.sess, r.rem, .refreshTok :: r.log⟩
    | o => ⟨o, r.sess, r.rem, .refreshTok :: r.log⟩

/-- Transcription of `get_thermostat_info` (lines 153-173): GET of the device
detail; on ok returns the JSON body, on transport exception returns `None`,
on any other status refreshes tokens and, when the refresh returns a truthy
value, recurses with no retry bound. -/
def get_thermostat_info (fuel : ℕ) (s : Session) (idv : JVal) (tr : List HResp) :
    Res :=
  match fuel with
  | 0 => ⟨.stuck, s, tr, []⟩
  | fuel + 1 =>
    match tr with
    | [] => ⟨.stuck, s, [], [.getDetail idv]⟩
    | .exn :: rest => ⟨.ret .null, s, rest, [.getDetail idv]⟩
    | .ok body :: rest =>
      ⟨.ret body, { s with authenticated := true }, rest, [.getDetail idv]⟩
    | .err _ _ :: rest =>
      let s1 := { s with authenticated := false }
      let r := refresh_tokens s1 rest
      match r.out with
      | .ret v =>
        if truthy v then
          let r2 := get_thermostat_info fuel r.sess idv r.rem
          ⟨r2.out, r2.sess, r2.rem, .getDetail idv :: r.log ++ r2.log⟩
        else ⟨.ret .null, r.sess, r.rem, .getDetail idv :: r.log⟩
      | o => ⟨o, r.sess, r.rem, .getDetail idv :: r.log⟩

/-- Transcription of the `for thermostat in self.thermostatlist` loop of
`get_thermostats` (lines 132-142), with the per-device detail fetch consuming
transport responses.  When a detail fetch returns `None` (or any non-dict),
the assignment `thermostat_info['name'] = ...` raises `TypeError`; the
right-hand side `thermostat['name']` is evaluated first, so a missing `name`
key raises `KeyError` before that.  The upsert is the same `upsert` used by
the pure model (the inner scan compares `thermostat['id']` against each
cached entry's `'id'` field). -/
def processEntries (fuel : ℕ) (entries : List JVal) (s : Session)
    (tr : List HResp) : Res :=
  match entries with
  | [] => ⟨.ret .null, s, tr, []⟩
  | entry :: es =>
    match subscr entry "id" with
    | .error e => ⟨.exc e, s, tr, []⟩
    | .ok idv =>
      let r := get_thermostat_info fuel s idv tr
      match r.out with
      | .ret info =>
        match subscr entry "name" with
        | .error e => ⟨.exc e, r.sess, r.rem, r.log⟩
        | .ok namev =>
          match info with
          | .obj dct =>
            let merged := dictSet (dictSet dct "name" namev) "id" idv
            let s2 := { r.sess with
              thermostats := upsert idv merged r.sess.thermostats }
            let r2 := processEntries fuel es s2 r.rem
            ⟨r2.out, r2.sess, r2.rem, r.log ++ r2.log⟩
          | _ => ⟨.exc .typeError, r.sess, r.rem, r.log⟩
      | o => ⟨o, r.sess, r.rem, r.log⟩

/-- Transcription of `get_thermostats` (lines 119-151): GET of the device
index; on ok reconcile the cache device by device and return the cache; on a
transport exception return `None`; on any other status refresh tokens and,
when the refresh returns a truthy value, recurse with no retry bound. -/
def get_thermostats (fuel : ℕ) (s : Session) (tr : List HResp) : Res :=
  match fuel with
  | 0 => ⟨.stuck, s, tr, []⟩
  | fuel + 1 =>
    match tr with
    | [] => ⟨.stuck, s, [], [.getDevices]⟩
    | .exn :: rest => ⟨.ret .null, s, rest, [.getDevices]⟩
    | .ok body :: rest =>
      let s1 := { s with authenticated := true, thermostatlist := body }
      match body with
      | .arr entries =>
        let r := processEntries fuel entries s1 rest
        match r.out with
        | .ret _ =>
          ⟨.ret (.arr (r.sess.thermostats.map .obj)), r.sess, r.rem,
            .getDevices :: r.log⟩
        | o => ⟨o, r.sess, r.rem, .getDevices :: r.log⟩
      | _ => ⟨.exc .typeError, s1, rest, [.getDevices]⟩
    | .err _ _ :: rest =>
      let s1 := { s with authenticated := false }
      let r := refresh_tokens s1 rest
      match r.out with
      | .ret v =>
        if truthy v then
          let r2 := get_thermostats fuel r.sess r.rem
          ⟨r2.out, r2.sess, r2.rem, .getDevices :: r.log ++ r2.log⟩
        else ⟨.ret .null, r.sess, r.rem, .getDevices :: r.log⟩
      | o => ⟨o, r.sess, r.rem, .getDevices :: r.log⟩

/-- Transcription of `make_request` (lines 228-250).  Note the retry call of
the source,

    return self.make_request(body, deviceID, log_msg_action,
                             retry_count=retry_count + 1)

which passes `body` where `index` is expected and `deviceID` where `body` is
expected; the model reproduces that argument swap verbatim.  The 401 guard
short-circuits: `request.json()['error']` is only evaluated when the status
is 401 and `retry_count == 0` (a missing `'error'` key then raises
`KeyError`).  When `refresh_tokens()` is falsy the method falls off the end
of the `elif` body and returns `None`. -/
def make_request (fuel : ℕ) (s : Session) (index body lma : JVal)
    (retry_count : ℕ) (tr : List HResp) : Res :=
  match fuel with
  | 0 => ⟨.stuck, s, tr, []⟩
  | fuel + 1 =>
    match listSubscr s.thermostats index with
    | .error e => ⟨.exc e, s, tr, []⟩
    | .ok entry =>
      match getField entry "id" with
      | none => ⟨.exc .keyError, s, tr, []⟩
      | some idv =>
        match tr with
        | [] => ⟨.stuck, s, [], [.putDevice idv body]⟩
        | .exn :: rest => ⟨.ret .null, s, rest, [.putDevice idv body]⟩
        | .ok rbody :: rest => ⟨.ret rbody, s, rest, [.putDevice idv body]⟩
        | .err code ebody :: rest =>
          if code = 401 ∧ retry_count = 0 then
            match subscr ebody "error" with
            | .error e => ⟨.exc e, s, rest, [.putDevice idv body]⟩
            | .ok ev =>
              if ev = .str "authorization_expired" then
                let r := refresh_tokens s rest
                match r.out with
                | .ret v =>
                  if truthy v then
                    let r2 := make_request fuel r.sess body idv lma
                      (retry_count + 1) r.rem
                    ⟨r2.out, r2.sess, r2.rem, .putDevice idv body :: r.log ++ r2.log⟩
                  else ⟨.ret .null, r.sess, r.rem, .putDevice idv body :: r.log⟩
                | o => ⟨o, r.sess, r.rem, .putDevice idv body :: r.log⟩
              else ⟨.ret .null, s, rest, [.putDevice idv body]⟩
          else ⟨.ret .null, s, rest, [.putDevice idv body]⟩

/-- Number of `GET /devices` requests in a request log. -/
def countGetDevices (lg : List Req) : ℕ :=
  lg.countP (fun q => match q with | .getDevices => true | _ => false)

/-- Number of `PUT /deviceData/{id}` requests in a request log. -/
def countPut (lg : List Req) : ℕ :=
  lg.countP (fun q => match q with | .putDevice _ _ => true | _ => false)

/-- Python `round(x, 1)`: round to the nearest multiple of one tenth (the
float-specific tie-breaking of CPython is not modelled; no claim is decided
at a tie). -/
def round1 (q : ℚ) : ℚ := (round (10 * q) : ℤ) / 10

/-- Python `round(x, 1)` applied to a JSON value: `TypeError` on non-numbers. -/
def roundJ (v : JVal) : Except PyErr JVal :=
  match v with
  | .num q => .ok (.num (round1 q))
  | _ => .error .typeError

/-- Reading `self.thermostats[index]["k"]` for the default-filling of the
command builders: `IndexError` past the end of the cache, `KeyError` on a
missing field. -/
def cachedField (cs : List Dict) (index : ℕ) (k : String) : Except PyErr JVal :=
  match cs[index]? with
  | none => .error .indexError
  | some entry =>
    match getField entry k with
    | some v => .ok v
    | none => .error .keyError

/-- Fieldset built by `set_hvac_mode` (lines 252-256). -/
def set_hvac_mode_body (hvac_mode : JVal) : Dict :=
  [("mode", hvac_mode)]

/-- Fieldset built by `set_thermostat_schedule` (lines 258-274); the heating
and cooling set points are transmitted exactly as passed, unrounded. -/
def set_thermostat_schedule_body (pfx : String)
    (start enable label heating cooling : JVal) : Dict :=
  [(pfx ++ "Time", start), (pfx ++ "Enabled", enable), (pfx ++ "Label", label),
   (pfx ++ "hsp", heating), (pfx ++ "csp", cooling)]

/-- Fieldset built by `set_fan_mode` (lines 276-280). -/
def set_fan_mode_body (fan_mode : JVal) : Dict :=
  [("fanCirculate", fan_mode)]

/-- Fieldset built by `set_fan_speed` (lines 282-286). -/
def set_fan_speed_body (fan_speed : JVal) : Dict :=
  [("fanCirculateSpeed", fan_speed)]

/-- Fieldset built by `set_fan_clean` (lines 288-293). -/
def set_fan_clean_body (active : JVal) : Dict :=
  [("oneCleanFanActive", active)]

/-- Fieldset built by `set_temp_hold` (lines 295-310): defaults are filled
from the cached entry in source order (duration, cool, heat); the two set
points are rounded to one decimal, the duration is transmitted as is. -/
def set_temp_hold_body (cs : List Dict) (index : ℕ)
    (cool_temp heat_temp hold_duration : Option JVal) : Except PyErr Dict := do
  let hd ← match hold_duration with
    | none => cachedField cs index "schedOverrideDuration"
    | some v => pure v
  let ct ← match cool_temp with
    | none => cachedField cs index "cspHome"
    | some v => pure v
  let ht ← match heat_temp with
    | none => cachedField cs index "hspHome"
    | some v => pure v
  let hr ← roundJ ht
  let cr ← roundJ ct
  pure [("hspHome", hr), ("cspHome", cr), ("schedOverride", .num 1),
        ("schedOverrideDuration", hd)]

/-- Fieldset built by `set_permanent_hold` (lines 312-326). -/
def set_permanent_hold_body (cs : List Dict) (index : ℕ)
    (cool_temp heat_temp : Option JVal) : Except PyErr Dict := do
  let ct ← match cool_temp with
    | none => cachedField cs index "cspHome"
    | some v => pure v
  let ht ← match heat_temp with
    | none => cachedField cs index "hspHome"
    | some v => pure v
  let hr ← roundJ ht
  let cr ← roundJ ct
  pure [("hspHome", hr), ("cspHome", cr), ("schedOverride", .num 0),
        ("schedEnabled", .bool false)]

/-- Fieldset built by `set_away` (lines 328-340): only the values defaulted
from the cache pass through `round(..., 1)`; caller-supplied temperatures are
transmitted exactly as passed, unrounded. -/
def set_away_body (cs : List Dict) (index : ℕ) (mode : JVal)
    (heat_temp cool_temp : Option JVal) : Except PyErr Dict := do
  let ht ← match heat_temp with
    | none => do
        let v ← cachedField cs index "hspAway"
        roundJ v
    | some v => pure v
  let ct ← match cool_temp with
    | none => do
        let v ← cachedField cs index "cspAway"
        roundJ v
    | some v => pure v
  pure [("geofencingAway", mode), ("hspAway", ht), ("cspAway", ct)]

/-- Fieldset built by `resume_program` (lines 342-350). -/
def resume_program_body : Dict :=
  [("schedEnabled", .bool true), ("schedOverride", .num 0),
   ("geofencingAway", .bool false)]

/-- Fieldset built by `set_fan_schedule` (lines 352-365). -/
def set_fan_schedule_body (start stop interval speed : JVal) : Dict :=
  [("fanCirculateStart", start), ("fanCirculateStop", stop),
   ("fanCirculateDuration", interval), ("fanCirculateSpeed", speed)]

/-- Fieldset built by `set_night_mode` (lines 367-375). -/
def set_night_mode_body (start stop enable : JVal) : Dict :=
  [("nightModeStart", start), ("nightModeStop", stop),
   ("nightModeEnabled", enable)]

/-- Fieldset built by `set_humidity` (lines 377-388): no rounding anywhere,
for supplied or defaulted values. -/
def set_humidity_body (cs : List Dict) (index : ℕ)
    (humidity_low humidity_high : Option JVal) : Except PyErr Dict := do
  let lo ← match humidity_low with
    | none => cachedField cs index "humSP"
    | some v => pure v
  let hi ← match humidity_high with
    | none => cachedField cs index "dehumSP"
    | some v => pure v
  pure [("dehumSP", hi), ("humSP", lo)]

/-- Stateful `set_hvac_mode`: build the fieldset and forward to
`make_request(index, body, log_msg_action)`. -/
def set_hvac_mode (fuel : ℕ) (s : Session) (index : ℕ) (hvac_mode : JVal)
    (tr : List HResp) : Res :=
  make_request fuel s (.num (index : ℚ)) (.obj (set_hvac_mode_body hvac_mode))
    (.str "set HVAC mode") 0 tr

/-- Stateful `set_thermostat_schedule`. -/
def set_thermostat_schedule (fuel : ℕ) (s : Session) (index : ℕ) (pfx : String)
    (start enable label heating cooling : JVal) (tr : List HResp) : Res :=
  make_request fuel s (.num (index : ℚ))
    (.obj (set_thermostat_schedule_body pfx start enable label heating cooling))
    (.str "set thermostat schedule") 0 tr

/-- Stateful `set_fan_mode`. -/
def set_fan_mode (fuel : ℕ) (s : Session) (index : ℕ) (fan_mode : JVal)
    (tr : List HResp) : Res :=
  make_request fuel s (.num (index : ℚ)) (.obj (set_fan_mode_body fan_mode))
    (.str "set fan mode") 0 tr

/-- Stateful `set_fan_speed`. -/
def set_fan_speed (fuel : ℕ) (s : Session) (index : ℕ) (fan_speed : JVal)
    (tr : List HResp) : Res :=
  make_request fuel s (.num (index : ℚ)) (.obj (set_fan_speed_body fan_speed))
    (.str "set fan speed") 0 tr

/-- Stateful `set_fan_clean`. -/
def set_fan_clean (fuel : ℕ) (s : Session) (index : ℕ) (active : JVal)
    (tr : List HResp) : Res :=
  make_request fuel s (.num (index : ℚ)) (.obj (set_fan_clean_body active))
    (.str "set fan clean mode") 0 tr

/-- Stateful `set_temp_hold`: the default-filling reads the cache and can
raise before any request is made. -/
def set_temp_hold (fuel : ℕ) (s : Session) (index : ℕ)
    (cool_temp heat_temp hold_duration : Option JVal) (tr : List HResp) : Res :=
  match set_temp_hold_body s.thermostats index cool_temp heat_temp hold_duration with
  | .error e => ⟨.exc e, s, tr, []⟩
  | .ok body =>
    make_request fuel s (.num (index : ℚ)) (.obj body) (.str "set hold temp") 0 tr

/-- Stateful `set_permanent_hold`. -/
def set_permanent_hold (fuel : ℕ) (s : Session) (index : ℕ)
    (cool_temp heat_temp : Option JVal) (tr : List HResp) : Res :=
  match set_permanent_hold_body s.thermostats index cool_temp heat_temp with
  | .error e => ⟨.exc e, s, tr, []⟩
  | .ok body =>
    make_request fuel s (.num (index : ℚ)) (.obj body)
      (.str "set permanent hold") 0 tr

/-- Stateful `set_away`. -/
def set_away (fuel : ℕ) (s : Session) (index : ℕ) (mode : JVal)
    (heat_temp cool_temp : Option JVal) (tr : List HResp) : Res :=
  match set_away_body s.thermostats index mode heat_temp cool_temp with
  | .error e => ⟨.exc e, s, tr, []⟩
  | .ok body =>
    make_request fuel s (.num (index : ℚ)) (.obj body) (.str "set away mode") 0 tr

/-- Stateful `resume_program`. -/
def resume_program (fuel : ℕ) (s : Session) (index : ℕ) (tr : List HResp) : Res :=
  make_request fuel s (.num (index : ℚ)) (.obj resume_program_body)
    (.str "resume program") 0 tr

/-- Stateful `set_fan_schedule`. -/
def set_fan_schedule (fuel : ℕ) (s : Session) (index : ℕ)
    (start stop interval speed : JVal) (tr : List HResp) : Res :=
  make_request fuel s (.num (index : ℚ))
    (.obj (set_fan_schedule_body start stop interval speed))
    (.str "set fan schedule") 0 tr

/-- Stateful `set_night_mode`. -/
def set_night_mode (fuel : ℕ) (s : Session) (index : ℕ)
    (start stop enable : JVal) (tr : List HResp) : Res :=
  make_request fuel s (.num (index : ℚ))
    (.obj (set_night_mode_body start stop enable)) (.str "set night mode") 0 tr

/-- Stateful `set_humidity`. -/
def set_humidity (fuel : ℕ) (s : Session) (index : ℕ)
    (humidity_low humidity_high : Option JVal) (tr : List HResp) : Res :=
  match set_humidity_body s.thermostats index humidity_low humidity_high with
  | .error e => ⟨.exc e, s, tr, []⟩
  | .ok body =>
    make_request fuel s (.num (index : ℚ)) (.obj body)
      (.str "set humidity level") 0 tr

/-- Transcription of `config_from_file` (lines 15-35) over an abstract config
store mapping filenames to stored (already parsed) credential mappings — the
spec places serialization and I/O in an external collaborator, so the model's
reads and writes always succeed (`IOError` branches unexercised).  A falsy
`config` argument — `None` or the empty mapping — selects the READ branch
(`if config:`); reading a missing file yields the empty mapping `{}`. -/
def config_from_file (fs : String → Option Dict) (filename : String)
    (config : Option Dict) : JVal × (String → Option Dict) :=
  match config with
  | some cfg =>
    if cfg.isEmpty then
      match fs filename with
      | some d => (.obj d, fs)
      | none => (.obj [], fs)
    else
      (.bool true, fun n => if n = filename then some cfg else fs n)
  | none =>
    match fs filename with
    | some d => (.obj d, fs)
    | none => (.obj [], fs)

/-- Fixture: a fresh session with an empty device cache. -/
def sessA : Session :=
  ⟨[], .null, false, .str "user@example.com", .str "tokenA", .str "refreshA", []⟩

/-- Fixture: a session whose cache holds one fully populated device. -/
def sessB : Session :=
  ⟨[[("id", .str "dev1"), ("hspHome", .num 20), ("cspHome", .num 25),
     ("schedOverrideDuration", .num 60), ("hspAway", .num 17),
     ("cspAway", .num 27), ("humSP", .num 40), ("dehumSP", .num 55)]],
   .null, false, .str "user@example.com", .str "tokenA", .str "refreshA", []⟩

/-- Fixture: the device-index GET fails three times while the token refresh
keeps succeeding twice, then refresh and re-login fail. -/
def trGet3 : List HResp :=
  [.err 500 (.obj []), .ok (.obj [("accessToken", .str "t2")]),
   .err 500 (.obj []), .ok (.obj [("accessToken", .str "t3")]),
   .err 500 (.obj []), .err 500 (.obj []), .err 500 (.obj [])]

/-- Fixture: an authorization-expired response followed by a successful
refresh. -/
def trRetry : List HResp :=
  [.err 401 (.obj [("error", .str "authorization_expired")]),
   .ok (.obj [("accessToken", .str "t2")])]

/-- Fixture: the device index succeeds but the per-device detail GET hits a
transport failure. -/
def trDetailFail : List HResp :=
  [.ok (.arr [.obj [("id", .str "dev1"), ("name", .str "Main")]]), .exn]

/-- Fixture: a config store already holding a credential mapping under the
default filename. -/
def fsW : String → Option Dict :=
  fun n => if n = "daikinskyport.conf" then
    some [("EMAIL", .str "user@example.com")] else none

theorem getField_dictSet_self (d : Dict) (k : String) (v : JVal) :
    getField (dictSet d k v) k = some v := by
  induction d with
  | nil => simp [dictSet, getField]
  | cons p t ih =>
    by_cases h : p.1 = k
    · simp [dictSet, getField, h]
    · simp [dictSet, getField, h, ih]

theorem getField_dictSet_ne (d : Dict) (k k' : String) (v : JVal) (hne : k ≠ k') :
    getField (dictSet d k v) k' = getField d k' := by
  induction d with
  | nil => simp [dictSet, getField, hne]
  | cons p t ih =>
    by_cases h : p.1 = k
    · have h' : ¬ (p.1 = k') := by rw [h]; exact hne
      simp [dictSet, getField, h, h', hne]
    · by_cases h2 : p.1 = k'
      · simp [dictSet, getField, h, h2, Ne.symm hne]
      · simp [dictSet, getField, h, h2, ih]

/-
Pure model of the cache-reconciliation loop of `DaikinSkyport.get_thermostats`
(daikinskyport.py lines 132-142), on the success path where every
`get_thermostat_info` call returns a payload:

    for thermostat in self.thermostatlist:
        overwrite = False
        thermostat_info = self.get_thermostat_info(thermostat['id'])
        thermostat_info['name'] = thermostat['name']
        thermostat_info['id'] = thermostat['id']
        for index in range(len(self.thermostats)):
            if thermostat['id'] == self.thermostats[index]['id']:
                overwrite = True
                self.thermostats[index] = thermostat_info
        if not overwrite:
            self.thermostats.append(thermostat_info)

The remote `/devices` index entry contributes its `id` and `name`; the detail
payload for an id is given by the function `details`.
-/

theorem getField_mkInfo_id (payload : Dict) (nameV idV : JVal) :
    getField (mkInfo payload nameV idV) "id" = some idV :=
  getField_dictSet_self _ _ _

theorem ids_length (c : List Dict) : (ids c).length = c.length :=
  List.length_map _ _

theorem hasId_iff_mem_ids (x : JVal) (c : List Dict) :
    hasId x c = true ↔ (some x) ∈ ids c := by
  unfold hasId ids
  rw [List.any_eq_true]
  constructor
  · rintro ⟨d, hd, hx⟩
    rw [decide_eq_true_eq] at hx
    exact List.mem_map.2 ⟨d, hd, hx.symm ▸ rfl⟩
  · intro h
    obtain ⟨d, hd, hx⟩ := List.mem_map.1 h
    exact ⟨d, hd, by rw [decide_eq_true_eq, hx]⟩

theorem ids_upsert_of_hasId (x : JVal) (info : Dict) (c : List Dict)
    (h : hasId x c = true) (hinfo : getField info "id" = some x) :
    ids (upsert x info c) = ids c := by
  unfold upsert
  rw [if_pos h]
  unfold ids
  rw [List.map_map]
  apply List.map_congr_left
  intro d _
  by_cases hd : getField d "id" = some x
  · simp [Function.comp, hd, hinfo]
  · simp [Function.comp, hd]

theorem ids_upsert_of_not_hasId (x : JVal) (info : Dict) (c : List Dict)
    (h : hasId x c = false) :
    ids (upsert x info c) = ids c ++ [getField info "id"] := by
  unfold upsert
  rw [if_neg (by rw [h]; exact Bool.false_ne_true)]
  unfold ids
  rw [List.map_append]
  rfl

theorem lastOcc_cons (e : Entry) (r : List Entry) (x : Option JVal) :
    lastOcc (e :: r) x =
      match lastOcc r x with
      | some w => some w
      | none => if some e.id = x then some e else none := rfl

theorem lastOcc_cons_of_some (e : Entry) (r : List Entry) (x : Option JVal) (w : Entry)
    (h : lastOcc r x = some w) : lastOcc (e :: r) x = some w := by
  rw [lastOcc_cons, h]

theorem lastOcc_cons_none_iff (e : Entry) (r : List Entry) (x : Option JVal) :
    lastOcc (e :: r) x = none ↔ lastOcc r x = none ∧ ¬ (some e.id = x) := by
  rw [lastOcc_cons]
  cases h : lastOcc r x with
  | some w => simp [h]
  | none =>
    by_cases hx : some e.id = x
    · simp [hx, h]
    · simp [hx, h]

theorem lastOcc_ne_none_of_mem (r : List Entry) (e : Entry) (x : Option JVal)
    (hmem : e ∈ r) (hx : some e.id = x) : lastOcc r x ≠ none := by
  induction r with
  | nil => cases hmem
  | cons a r ih =>
    rw [lastOcc_cons]
    cases h : lastOcc r x with
    | some w => simp
    | none =>
      rcases List.mem_cons.1 hmem with rfl | hmem2
      · simp [hx]
      · exact absurd h (ih hmem2)

theorem foldl_runListDevices (d : JVal → Dict) (e : Entry) (r : List Entry)
    (c : List Dict) :
    runListDevices d (e :: r) c = runListDevices d r (processDevice d c e) := rfl

/-- Shape of the id sequence after one reconciliation pass: the ids of the old
entries are preserved in place (with their order), and whatever is appended is
an id of some remote entry. -/
theorem ids_runListDevices (d : JVal → Dict) (r : List Entry) (c : List Dict) :
    ∃ t, ids (runListDevices d r c) = ids c ++ t ∧
      ∀ x ∈ t, ∃ e, e ∈ r ∧ x = some e.id := by
  induction r generalizing c with
  | nil => exact ⟨[], by simp [runListDevices, ids], by simp⟩
  | cons e r ih =>
    rw [foldl_runListDevices]
    obtain ⟨t, ht, htmem⟩ := ih (processDevice d c e)
    by_cases h : hasId e.id c = true
    · refine ⟨t, ?_, ?_⟩
      · rw [ht]
        unfold processDevice
        rw [ids_upsert_of_hasId e.id _ c h (getField_mkInfo_id _ _ _)]
      · intro x hx
        obtain ⟨e', he', hxe⟩ := htmem x hx
        exact ⟨e', List.mem_cons_of_mem _ he', hxe⟩
    · refine ⟨some e.id :: t, ?_, ?_⟩
      · rw [ht]
        unfold processDevice
        rw [ids_upsert_of_not_hasId e.id _ c (by simpa using h),
          getField_mkInfo_id]
        simp
      · intro x hx
        rcases List.mem_cons.1 hx with rfl | hx
        · exact ⟨e, List.mem_cons_self _ _, rfl⟩
        · obtain ⟨e', he', hxe⟩ := htmem x hx
          exact ⟨e', List.mem_cons_of_mem _ he', hxe⟩

/-- An id present in the cache is still present after a reconciliation pass:
entries are never removed. -/
theorem hasId_runListDevices_of_hasId (d : JVal → Dict) (r : List Entry)
    (c : List Dict) (x : JVal) (h : hasId x c = true) :
    hasId x (runListDevices d r c) = true := by
  obtain ⟨t, ht, _⟩ := ids_runListDevices d r c
  rw [hasId_iff_mem_ids] at h ⊢
  rw [ht]
  exact List.mem_append_left _ h

theorem hasId_upsert_self (x : JVal) (info : Dict) (c : List Dict)
    (hinfo : getField info "id" = some x) :
    hasId x (upsert x info c) = true := by
  rw [hasId_iff_mem_ids]
  by_cases h : hasId x c = true
  · rw [ids_upsert_of_hasId x info c h hinfo]
    exact (hasId_iff_mem_ids x c).1 h
  · rw [ids_upsert_of_not_hasId x info c (by simpa using h), hinfo]
    exact List.mem_append_right _ (by simp)

/-- Every device of the remote list is present in the cache after the pass. -/
theorem hasId_runListDevices_of_mem (d : JVal → Dict) (r : List Entry)
    (c : List Dict) (e : Entry) (hmem : e ∈ r) :
    hasId e.id (runListDevices d r c) = true := by
  induction r generalizing c with
  | nil => cases hmem
  | cons a r ih =>
    rw [foldl_runListDevices]
    rcases List.mem_cons.1 hmem with rfl | hmem
    · exact hasId_runListDevices_of_hasId d r _ e.id
        (hasId_upsert_self e.id _ c (getField_mkInfo_id _ _ _))
    · exact ih _ hmem

theorem ids_getElem?_exists (cs : List Dict) (j : ℕ) (x : Option JVal)
    (hx : (ids cs)[j]? = some x) :
    ∃ dj, cs[j]? = some dj ∧ getField dj "id" = x := by
  unfold ids at hx
  rw [List.getElem?_map] at hx
  cases hc : cs[j]? with
  | none => rw [hc] at hx; cases hx
  | some dj =>
    rw [hc] at hx
    exact ⟨dj, rfl, by injection hx⟩

theorem hasId_of_getElem? (cs : List Dict) (j : ℕ) (dj : Dict) (v : JVal)
    (h : cs[j]? = some dj) (hid : getField dj "id" = some v) : hasId v cs = true := by
  rw [hasId_iff_mem_ids]
  rw [List.getElem?_eq_some] at h
  obtain ⟨hj, rfl⟩ := h
  exact List.mem_map.2 ⟨_, List.getElem_mem hj, hid⟩

/-- Positions whose id never occurs in the remote list are left untouched by a
reconciliation pass. -/
theorem runListDevices_getElem?_frame (d : JVal → Dict) (r : List Entry)
    (cs : List Dict) (j : ℕ) (x : Option JVal)
    (hx : (ids cs)[j]? = some x) (hno : lastOcc r x = none) :
    (runListDevices d r cs)[j]? = cs[j]? := by
  induction r generalizing cs with
  | nil => rfl
  | cons e r ih =>
    rw [lastOcc_cons_none_iff] at hno
    obtain ⟨hnor, hne⟩ := hno
    rw [foldl_runListDevices]
    obtain ⟨dj, hdj, hdjid⟩ := ids_getElem?_exists cs j x hx
    have hjlt : j < cs.length := by
      rw [List.getElem?_eq_some] at hdj
      exact hdj.1
    by_cases h : hasId e.id cs = true
    · have hmap : processDevice d cs e =
          cs.map (fun w => if getField w "id" = some e.id then
            mkInfo (d e.id) e.name e.id else w) := by
        unfold processDevice upsert
        rw [if_pos h]
      have hstep : (processDevice d cs e)[j]? = cs[j]? := by
        rw [hmap, List.getElem?_map, hdj]
        have hcond : ¬ (getField dj "id" = some e.id) := by
          rw [hdjid]
          exact fun hc => hne hc.symm
        simp [hcond]
      have hids : (ids (processDevice d cs e))[j]? = some x := by
        have heq := ids_upsert_of_hasId e.id (mkInfo (d e.id) e.name e.id) cs h
          (getField_mkInfo_id _ _ _)
        unfold processDevice
        rw [heq]
        exact hx
      rw [ih _ hids, hstep]
      exact hnor
    · have happ : processDevice d cs e = cs ++ [mkInfo (d e.id) e.name e.id] := by
        unfold processDevice upsert
        rw [if_neg (by simpa using h)]
      have hstep : (processDevice d cs e)[j]? = cs[j]? := by
        rw [happ, List.getElem?_append, if_pos hjlt]
      have hids : (ids (processDevice d cs e))[j]? = some x := by
        have heq := ids_upsert_of_not_hasId e.id (mkInfo (d e.id) e.name e.id) cs
          (by simpa using h)
        unfold processDevice
        rw [heq, List.getElem?_append, if_pos (by rw [ids_length]; exact hjlt)]
        exact hx
      rw [ih _ hids, hstep]
      exact hnor

/-- Positions whose id occurs in the remote list end the reconciliation pass
holding exactly the merged payload of the last remote occurrence of that id:
the later payload replaces the cache entry entirely, in place. -/
theorem runListDevices_getElem?_final (d : JVal → Dict) (r : List Entry)
    (cs : List Dict) (j : ℕ) (x : Option JVal) (e : Entry)
    (hx : (ids (runListDevices d r cs))[j]? = some x)
    (hlast : lastOcc r x = some e) :
    (runListDevices d r cs)[j]? = some (mkInfo (d e.id) e.name e.id) := by
  induction r generalizing cs with
  | nil => cases hlast
  | cons e0 r ih =>
    rw [foldl_runListDevices] at hx ⊢
    cases hl : lastOcc r x with
    | some w =>
      have hw : lastOcc (e0 :: r) x = some w := lastOcc_cons_of_some _ _ _ _ hl
      rw [hlast] at hw
      injection hw with hw
      subst hw
      exact ih _ hx hl
    | none =>
      have hcons := lastOcc_cons e0 r x
      rw [hl, hlast] at hcons
      by_cases hid : some e0.id = x
      · rw [if_pos hid] at hcons
        injection hcons with he
        subst he
        by_cases hj : j < (processDevice d cs e).length
        · have hidsc1 : (ids (processDevice d cs e))[j]? = some x := by
            obtain ⟨t, ht, _⟩ := ids_runListDevices d r (processDevice d cs e)
            rw [ht, List.getElem?_append,
              if_pos (by rw [ids_length]; exact hj)] at hx
            exact hx
          rw [runListDevices_getElem?_frame d r _ j x hidsc1 hl]
          by_cases h : hasId e.id cs = true
          · have hmap : processDevice d cs e =
                cs.map (fun w => if getField w "id" = some e.id then
                  mkInfo (d e.id) e.name e.id else w) := by
              unfold processDevice upsert
              rw [if_pos h]
            have hidscs : (ids cs)[j]? = some x := by
              have heq := ids_upsert_of_hasId e.id (mkInfo (d e.id) e.name e.id) cs h
                (getField_mkInfo_id _ _ _)
              unfold processDevice at hidsc1
              rw [heq] at hidsc1
              exact hidsc1
            obtain ⟨dj, hdj, hdjid⟩ := ids_getElem?_exists cs j x hidscs
            rw [hmap, List.getElem?_map, hdj]
            have hcond : getField dj "id" = some e.id := by rw [hdjid, ← hid]
            simp [hcond]
          · have happ : processDevice d cs e = cs ++ [mkInfo (d e.id) e.name e.id] := by
              unfold processDevice upsert
              rw [if_neg (by simpa using h)]
            have hj2 : j < cs.length + 1 := by
              rw [happ, List.length_append, List.length_singleton] at hj
              exact hj
            by_cases hjc : j < cs.length
            · have hidscs : (ids cs)[j]? = some x := by
                have heq := ids_upsert_of_not_hasId e.id (mkInfo (d e.id) e.name e.id)
                  cs (by simpa using h)
                unfold processDevice at hidsc1
                rw [heq, List.getElem?_append,
                  if_pos (by rw [ids_length]; exact hjc)] at hidsc1
                exact hidsc1
              obtain ⟨dj, hdj, hdjid⟩ := ids_getElem?_exists cs j x hidscs
              have : hasId e.id cs = true :=
                hasId_of_getElem? cs j dj e.id hdj (by rw [hdjid, ← hid])
              exact absurd this h
            · have hjeq : j = cs.length := by omega
              rw [happ, hjeq]
              simp
        · obtain ⟨t, ht, htm⟩ := ids_runListDevices d r (processDevice d cs e)
          rw [ht, List.getElem?_append,
            if_neg (by rw [ids_length]; exact hj)] at hx
          have hxt : x ∈ t := by
            rw [List.getElem?_eq_some] at hx
            obtain ⟨hlt, rfl⟩ := hx
            exact List.getElem_mem hlt
          obtain ⟨e', he', rfl⟩ := htm x hxt
          exact absurd hl (lastOcc_ne_none_of_mem r e' (some e'.id) he' rfl)
      · rw [if_neg hid] at hcons
        cases hcons

/-- A cache whose id-occurring positions already hold the winning merged
payloads is a fixed point of the pass, relative to any cache with the same id
sequence that agrees on the untouched positions. -/
theorem runListDevices_of_fixed (d : JVal → Dict) :
    ∀ (r : List Entry) (cs cs' : List Dict),
    ids cs' = ids cs →
    (∀ e, e ∈ r → hasId e.id cs = true) →
    (∀ (j : ℕ) (x : Option JVal), (ids cs)[j]? = some x →
        (∀ e, lastOcc r x = some e → cs[j]? = some (mkInfo (d e.id) e.name e.id)) ∧
        (lastOcc r x = none → cs'[j]? = cs[j]?)) →
    runListDevices d r cs' = cs := by
  intro r
  induction r with
  | nil =>
    intro cs cs' hids _ hpt
    apply List.ext_getElem?
    intro j
    by_cases hj : j < cs.length
    · cases hx : (ids cs)[j]? with
      | none =>
        rw [List.getElem?_eq_none_iff, ids_length] at hx
        omega
      | some x => exact (hpt j x hx).2 rfl
    · have h1 : cs[j]? = none := List.getElem?_eq_none (by omega)
      have h2 : cs'[j]? = none := by
        apply List.getElem?_eq_none
        have := congrArg List.length hids
        rw [ids_length, ids_length] at this
        omega
      show cs'[j]? = cs[j]?
      rw [h1, h2]
  | cons e0 r ih =>
    intro cs cs' hids hcov hpt
    rw [foldl_runListDevices]
    have h0 : hasId e0.id cs = true := hcov e0 (List.mem_cons_self _ _)
    have h0' : hasId e0.id cs' = true := by
      rw [hasId_iff_mem_ids, hids, ← hasId_iff_mem_ids]
      exact h0
    have hup : processDevice d cs' e0 =
        cs'.map (fun w => if getField w "id" = some e0.id then
          mkInfo (d e0.id) e0.name e0.id else w) := by
      unfold processDevice upsert
      rw [if_pos h0']
    apply ih cs (processDevice d cs' e0)
    · have heq := ids_upsert_of_hasId e0.id (mkInfo (d e0.id) e0.name e0.id) cs' h0'
        (getField_mkInfo_id _ _ _)
      unfold processDevice
      rw [heq]
      exact hids
    · intro e he
      exact hcov e (List.mem_cons_of_mem _ he)
    · intro j x hx
      constructor
      · intro e hle
        exact (hpt j x hx).1 e (lastOcc_cons_of_some _ _ _ _ hle)
      · intro hnone
        have hx' : (ids cs')[j]? = some x := by rw [hids]; exact hx
        obtain ⟨dj, hdj, hdjid⟩ := ids_getElem?_exists cs' j x hx'
        by_cases hid : some e0.id = x
        · have hcs : cs[j]? = some (mkInfo (d e0.id) e0.name e0.id) :=
            (hpt j x hx).1 e0 (by rw [lastOcc_cons, hnone, if_pos hid])
          rw [hup, List.getElem?_map, hdj, hcs]
          have hcond : getField dj "id" = some e0.id := by rw [hdjid, ← hid]
          simp [hcond]
        · have hno : lastOcc (e0 :: r) x = none :=
            (lastOcc_cons_none_iff _ _ _).2 ⟨hnone, hid⟩
          have hcs' : cs'[j]? = cs[j]? := (hpt j x hx).2 hno
          rw [hup, List.getElem?_map, hdj, ← hcs', hdj]
          have hcond : ¬ (getField dj "id" = some e0.id) := by
            rw [hdjid]
            exact fun hc => hid hc.symm
          simp [hcond]

theorem length_le_runListDevices (d : JVal → Dict) (r : List Entry) (cs : List Dict) :
    cs.length ≤ (runListDevices d r cs).length := by
  obtain ⟨t, ht, _⟩ := ids_runListDevices d r cs
  have := congrArg List.length ht
  rw [ids_length, List.length_append, ids_length] at this
  omega

/-- Shape of the id sequence, refined: the appended block of ids is a sublist
of the remote ids, in remote-list order. -/
theorem ids_runListDevices_sublist (d : JVal → Dict) (r : List Entry)
    (cs : List Dict) :
    ∃ t, ids (runListDevices d r cs) = ids cs ++ t ∧
      t.Sublist (r.map (fun e => some e.id)) := by
  induction r generalizing cs with
  | nil => exact ⟨[], by simp [runListDevices, ids], List.nil_sublist _⟩
  | cons e r ih =>
    rw [foldl_runListDevices]
    obtain ⟨t, ht, hs⟩ := ih (processDevice d cs e)
    by_cases h : hasId e.id cs = true
    · refine ⟨t, ?_, ?_⟩
      · rw [ht]
        unfold processDevice
        rw [ids_upsert_of_hasId e.id _ cs h (getField_mkInfo_id _ _ _)]
      · exact hs.cons _
    · refine ⟨some e.id :: t, ?_, ?_⟩
      · rw [ht]
        unfold processDevice
        rw [ids_upsert_of_not_hasId e.id _ cs (by simpa using h),
          getField_mkInfo_id]
        simp
      · exact hs.cons₂ _

/-- Distinctness of cache ids is preserved by a reconciliation pass. -/
theorem nodup_ids_runListDevices (d : JVal → Dict) (r : List Entry)
    (cs : List Dict) (h : (ids cs).Nodup) :
    (ids (runListDevices d r cs)).Nodup := by
  induction r generalizing cs with
  | nil => exact h
  | cons e r ih =>
    rw [foldl_runListDevices]
    apply ih
    unfold processDevice
    by_cases hh : hasId e.id cs = true
    · rw [ids_upsert_of_hasId e.id _ cs hh (getField_mkInfo_id _ _ _)]
      exact h
    · rw [ids_upsert_of_not_hasId e.id _ cs (by simpa using hh), getField_mkInfo_id]
      rw [List.nodup_append]
      refine ⟨h, List.nodup_singleton _, ?_⟩
      intro a ha hb
      rw [List.mem_singleton] at hb
      subst hb
      rw [← hasId_iff_mem_ids] at ha
      exact absurd ha (by simpa using hh)

theorem countGetDevices_append (a b : List Req) :
    countGetDevices (a ++ b) = countGetDevices a + countGetDevices b :=
  List.countP_append _ _ _

theorem countPut_append (a b : List Req) :
    countPut (a ++ b) = countPut a + countPut b :=
  List.countP_append _ _ _

theorem request_tokens_thermostats (s : Session) (tr : List HResp) :
    (request_tokens s tr).sess.thermostats = s.thermostats := by
  unfold request_tokens
  cases tr with
  | nil => simp
  | cons h rest =>
    cases h with
    | exn => simp
    | ok body =>
      cases hsub : subscr body "accessToken" with
      | error e => simp [hsub]
      | ok atk =>
        cases hsub2 : subscr body "refreshToken" with
        | error e => simp [hsub, hsub2]
        | ok rtk =>
          by_cases hn : rtk = JVal.null <;>
            simp [hsub, hsub2, hn, write_tokens_to_file]
    | err code body => simp

theorem refresh_tokens_thermostats (s : Session) (tr : List HResp) :
    (refresh_tokens s tr).sess.thermostats = s.thermostats := by
  unfold refresh_tokens
  cases tr with
  | nil => simp
  | cons h rest =>
    cases h with
    | exn => simp
    | ok body =>
      cases hsub : subscr body "accessToken" with
      | error e => simp [hsub]
      | ok atk => simp [hsub, write_tokens_to_file]
    | err code body =>
      cases ho : (request_tokens s rest).out <;>
        simp [ho, request_tokens_thermostats]

theorem request_tokens_log (s : Session) (tr : List HResp) :
    (request_tokens s tr).log = [.login] := by
  unfold request_tokens
  cases tr with
  | nil => simp
  | cons h rest =>
    cases h with
    | exn => simp
    | ok body =>
      cases hsub : subscr body "accessToken" with
      | error e => simp [hsub]
      | ok atk =>
        cases hsub2 : subscr body "refreshToken" with
        | error e => simp [hsub, hsub2]
        | ok rtk =>
          by_cases hn : rtk = JVal.null <;> simp [hsub, hsub2, hn]
    | err code body => simp

theorem refresh_tokens_countGetDevices (s : Session) (tr : List HResp) :
    countGetDevices (refresh_tokens s tr).log = 0 := by
  unfold refresh_tokens
  cases tr with
  | nil => simp [countGetDevices]
  | cons h rest =>
    cases h with
    | exn => simp [countGetDevices]
    | ok body =>
      cases hsub : subscr body "accessToken" with
      | error e => simp [hsub, countGetDevices]
      | ok atk => simp [hsub, countGetDevices]
    | err code body =>
      cases ho : (request_tokens s rest).out <;>
        simp [ho, countGetDevices, List.countP_cons, request_tokens_log]

theorem refresh_tokens_countPut (s : Session) (tr : List HResp) :
    countPut (refresh_tokens s tr).log = 0 := by
  unfold refresh_tokens
  cases tr with
  | nil => simp [countPut]
  | cons h rest =>
    cases h with
    | exn => simp [countPut]
    | ok body =>
      cases hsub : subscr body "accessToken" with
      | error e => simp [hsub, countPut]
      | ok atk => simp [hsub, countPut]
    | err code body =>
      cases ho : (request_tokens s rest).out <;>
        simp [ho, countPut, List.countP_cons, request_tokens_log]

theorem refresh_tokens_rem_of_truthy (s : Session) (tr : List HResp) (v : JVal)
    (hout : (refresh_tokens s tr).out = .ret v) (hv : truthy v = true) :
    (refresh_tokens s tr).rem.length + 1 ≤ tr.length := by
  cases tr with
  | nil => simp [refresh_tokens] at hout
  | cons h rest =>
    cases h with
    | exn => simp [refresh_tokens] at hout
    | ok body =>
      cases hsub : subscr body "accessToken" with
      | error e => simp [refresh_tokens, hsub] at hout
      | ok atk => simp [refresh_tokens, hsub]
    | err code body =>
      cases ho : (request_tokens s rest).out with
      | ret w =>
        simp only [refresh_tokens, ho] at hout
        injection hout with hv2
        rw [← hv2] at hv
        cases hv
      | exc e => simp [refresh_tokens, ho] at hout
      | stuck => simp [refresh_tokens, ho] at hout

theorem countGetDevices_nil : countGetDevices [] = 0 := rfl

theorem countGetDevices_getDevices (l : List Req) :
    countGetDevices (.getDevices :: l) = countGetDevices l + 1 := by
  simp [countGetDevices, List.countP_cons]

theorem countGetDevices_getDetail (idv : JVal) (l : List Req) :
    countGetDevices (.getDetail idv :: l) = countGetDevices l := by
  simp [countGetDevices, List.countP_cons]

theorem countGetDevices_login (l : List Req) :
    countGetDevices (.login :: l) = countGetDevices l := by
  simp [countGetDevices, List.countP_cons]

theorem countGetDevices_refreshTok (l : List Req) :
    countGetDevices (.refreshTok :: l) = countGetDevices l := by
  simp [countGetDevices, List.countP_cons]

theorem countGetDevices_putDevice (a b : JVal) (l : List Req) :
    countGetDevices (.putDevice a b :: l) = countGetDevices l := by
  simp [countGetDevices, List.countP_cons]

theorem countPut_nil : countPut [] = 0 := rfl

theorem countPut_putDevice (a b : JVal) (l : List Req) :
    countPut (.putDevice a b :: l) = countPut l + 1 := by
  simp [countPut, List.countP_cons]

theorem countPut_getDevices (l : List Req) :
    countPut (.getDevices :: l) = countPut l := by
  simp [countPut, List.countP_cons]

theorem countPut_getDetail (idv : JVal) (l : List Req) :
    countPut (.getDetail idv :: l) = countPut l := by
  simp [countPut, List.countP_cons]

theorem countPut_login (l : List Req) :
    countPut (.login :: l) = countPut l := by
  simp [countPut, List.countP_cons]

theorem countPut_refreshTok (l : List Req) :
    countPut (.refreshTok :: l) = countPut l := by
  simp [countPut, List.countP_cons]

theorem get_thermostat_info_countGetDevices (fuel : ℕ) (s : Session) (idv : JVal)
    (tr : List HResp) :
    countGetDevices (get_thermostat_info fuel s idv tr).log = 0 := by
  induction fuel generalizing s tr with
  | zero => rfl
  | succ fuel ih =>
    cases tr with
    | nil =>
      simp only [get_thermostat_info]
      rw [countGetDevices_getDetail, countGetDevices_nil]
    | cons h rest =>
      cases h with
      | exn =>
        simp only [get_thermostat_info]
        rw [countGetDevices_getDetail, countGetDevices_nil]
      | ok body =>
        simp only [get_thermostat_info]
        rw [countGetDevices_getDetail, countGetDevices_nil]
      | err code body =>
        simp only [get_thermostat_info]
        cases ho : (refresh_tokens { s with authenticated := false } rest).out with
        | ret v =>
          by_cases hv : truthy v = true
          · simp only [hv, if_true]
            rw [countGetDevices_append, countGetDevices_getDetail,
              refresh_tokens_countGetDevices, ih]
          · simp only [Bool.eq_false_iff.2 hv, Bool.false_eq_true, if_false]
            rw [countGetDevices_getDetail, refresh_tokens_countGetDevices]
        | exc e =>
          rw [countGetDevices_getDetail, refresh_tokens_countGetDevices]
        | stuck =>
          rw [countGetDevices_getDetail, refresh_tokens_countGetDevices]

theorem processEntries_countGetDevices (fuel : ℕ) (entries : List JVal)
    (s : Session) (tr : List HResp) :
    countGetDevices (processEntries fuel entries s tr).log = 0 := by
  induction entries generalizing s tr with
  | nil => rfl
  | cons entry es ih =>
    simp only [processEntries]
    cases hid : subscr entry "id" with
    | error e => rfl
    | ok idv =>
      dsimp only
      cases ho : (get_thermostat_info fuel s idv tr).out with
      | ret info =>
        dsimp only
        cases hname : subscr entry "name" with
        | error e => exact get_thermostat_info_countGetDevices fuel s idv tr
        | ok namev =>
          dsimp only
          cases info with
          | obj dct =>
            dsimp only
            rw [countGetDevices_append, ih, get_thermostat_info_countGetDevices]
          | null => exact get_thermostat_info_countGetDevices fuel s idv tr
          | bool b => exact get_thermostat_info_countGetDevices fuel s idv tr
          | num q => exact get_thermostat_info_countGetDevices fuel s idv tr
          | str st => exact get_thermostat_info_countGetDevices fuel s idv tr
          | arr l => exact get_thermostat_info_countGetDevices fuel s idv tr
      | exc e => exact get_thermostat_info_countGetDevices fuel s idv tr
      | stuck => exact get_thermostat_info_countGetDevices fuel s idv tr

/-- Retry discipline of `get_thermostats`: one `GET /devices` per attempt, a
new attempt after every successful refresh; the attempt count is bounded only
by the length of the transport trace (two responses per extra attempt), not
by 2. -/
theorem get_thermostats_attempts_le (fuel : ℕ) (s : Session) (tr : List HResp) :
    countGetDevices (get_thermostats fuel s tr).log ≤ tr.length / 2 + 1 := by
  induction fuel generalizing s tr with
  | zero => simp [get_thermostats, countGetDevices]
  | succ fuel ih =>
    cases tr with
    | nil =>
      simp only [get_thermostats]
      rw [countGetDevices_getDevices, countGetDevices_nil]
      omega
    | cons h rest =>
      have hone : countGetDevices [Req.getDevices] ≤ (h :: rest).length / 2 + 1 := by
        rw [countGetDevices_getDevices, countGetDevices_nil]
        omega
      cases h with
      | exn => exact hone
      | ok body =>
        simp only [get_thermostats]
        cases body with
        | arr entries =>
          dsimp only
          cases ho : (processEntries fuel entries
              { s with authenticated := true, thermostatlist := .arr entries }
              rest).out <;>
          · rw [countGetDevices_getDevices, processEntries_countGetDevices]
            simp only [List.length_cons]
            omega
        | null => exact hone
        | bool b => exact hone
        | num q => exact hone
        | str st => exact hone
        | obj dd => exact hone
      | err code body =>
        simp only [get_thermostats]
        cases ho : (refresh_tokens { s with authenticated := false } rest).out with
        | ret v =>
          by_cases hv : truthy v = true
          · have hrem := refresh_tokens_rem_of_truthy
              { s with authenticated := false } rest v ho hv
            have hbound := ih
              (refresh_tokens { s with authenticated := false } rest).sess
              (refresh_tokens { s with authenticated := false } rest).rem
            simp only [hv, if_true]
            rw [countGetDevices_append, countGetDevices_getDevices,
              refresh_tokens_countGetDevices]
            simp only [List.length_cons]
            omega
          · simp only [Bool.eq_false_iff.2 hv, Bool.false_eq_true, if_false]
            rw [countGetDevices_getDevices, refresh_tokens_countGetDevices]
            omega
        | exc e =>
          rw [countGetDevices_getDevices, refresh_tokens_countGetDevices]
          omega
        | stuck =>
          rw [countGetDevices_getDevices, refresh_tokens_countGetDevices]
          omega

/-- Command dispatch never touches the device cache: `make_request` reads
`self.thermostats[index]` but no branch (including refresh and retry) writes
it. -/
theorem make_request_thermostats (fuel : ℕ) (s : Session) (index body lma : JVal)
    (retry_count : ℕ) (tr : List HResp) :
    (make_request fuel s index body lma retry_count tr).sess.thermostats
      = s.thermostats := by
  induction fuel generalizing s index body lma retry_count tr with
  | zero => rfl
  | succ fuel ih =>
    simp only [make_request]
    cases hls : listSubscr s.thermostats index with
    | error e => rfl
    | ok entry =>
      dsimp only
      cases hf : getField entry "id" with
      | none => rfl
      | some idv =>
        dsimp only
        cases tr with
        | nil => rfl
        | cons h rest =>
          cases h with
          | exn => rfl
          | ok rbody => rfl
          | err code ebody =>
            dsimp only
            by_cases hc : code = 401 ∧ retry_count = 0
            · rw [if_pos hc]
              cases hsub : subscr ebody "error" with
              | error e => rfl
              | ok ev =>
                dsimp only
                by_cases hev : ev = JVal.str "authorization_expired"
                · rw [if_pos hev]
                  cases ho : (refresh_tokens s rest).out with
                  | ret v =>
                    by_cases hv : truthy v = true
                    · simp only [hv, if_true]
                      rw [ih, refresh_tokens_thermostats]
                    · simp only [Bool.eq_false_iff.2 hv, Bool.false_eq_true,
                        if_false]
                      rw [refresh_tokens_thermostats]
                  | exc e => rw [refresh_tokens_thermostats]
                  | stuck => rw [refresh_tokens_thermostats]
                · rw [if_neg hev]
            · rw [if_neg hc]

theorem make_request_obj_index_log (fuel : ℕ) (s : Session) (bd : Dict)
    (body lma : JVal) (retry_count : ℕ) (tr : List HResp) :
    (make_request fuel s (.obj bd) body lma retry_count tr).log = [] := by
  cases fuel <;> rfl

/-- With a nonzero retry count the 401 branch is dead code, so at most one
PUT is issued. -/
theorem make_request_countPut_retried (fuel : ℕ) (s : Session)
    (index body lma : JVal) (retry_count : ℕ) (tr : List HResp)
    (hrc : retry_count ≠ 0) :
    countPut (make_request fuel s index body lma retry_count tr).log ≤ 1 := by
  cases fuel with
  | zero => simp [make_request, countPut]
  | succ fuel =>
    simp only [make_request]
    cases hls : listSubscr s.thermostats index with
    | error e => simp [countPut]
    | ok entry =>
      dsimp only
      cases hf : getField entry "id" with
      | none => simp [countPut]
      | some idv =>
        dsimp only
        cases tr with
        | nil => rw [countPut_putDevice, countPut_nil]
        | cons h rest =>
          cases h with
          | exn => rw [countPut_putDevice, countPut_nil]
          | ok rbody => rw [countPut_putDevice, countPut_nil]
          | err code ebody =>
            dsimp only
            have hc : ¬ (code = 401 ∧ retry_count = 0) := fun hh => hrc hh.2
            rw [if_neg hc, countPut_putDevice, countPut_nil]

/-- At most two PUT requests are ever issued by one `make_request`
invocation, for any transport behaviour. -/
theorem make_request_countPut_le_two (fuel : ℕ) (s : Session)
    (index body lma : JVal) (retry_count : ℕ) (tr : List HResp) :
    countPut (make_request fuel s index body lma retry_count tr).log ≤ 2 := by
  cases fuel with
  | zero => simp [make_request, countPut]
  | succ fuel =>
    simp only [make_request]
    cases hls : listSubscr s.thermostats index with
    | error e => simp [countPut]
    | ok entry =>
      dsimp only
      cases hf : getField entry "id" with
      | none => simp [countPut]
      | some idv =>
        dsimp only
        cases tr with
        | nil => rw [countPut_putDevice, countPut_nil]; omega
        | cons h rest =>
          cases h with
          | exn => rw [countPut_putDevice, countPut_nil]; omega
          | ok rbody => rw [countPut_putDevice, countPut_nil]; omega
          | err code ebody =>
            dsimp only
            by_cases hc : code = 401 ∧ retry_count = 0
            · rw [if_pos hc]
              cases hsub : subscr ebody "error" with
              | error e => rw [countPut_putDevice, countPut_nil]; omega
              | ok ev =>
                dsimp only
                by_cases hev : ev = JVal.str "authorization_expired"
                · rw [if_pos hev]
                  cases ho : (refresh_tokens s rest).out with
                  | ret v =>
                    by_cases hv : truthy v = true
                    · simp only [hv, if_true]
                      rw [countPut_append, countPut_putDevice,
                        refresh_tokens_countPut]
                      have := make_request_countPut_retried fuel
                        (refresh_tokens s rest).sess body idv lma
                        (retry_count + 1) (refresh_tokens s rest).rem
                        (Nat.succ_ne_zero _)
                      omega
                    · simp only [Bool.eq_false_iff.2 hv, Bool.false_eq_true,
                        if_false]
                      rw [countPut_putDevice, refresh_tokens_countPut]
                      omega
                  | exc e =>
                    rw [countPut_putDevice, refresh_tokens_countPut]
                    omega
                  | stuck =>
                    rw [countPut_putDevice, refresh_tokens_countPut]
                    omega
                · rw [if_neg hev, countPut_putDevice, countPut_nil]
                  omega
            · rw [if_neg hc, countPut_putDevice, countPut_nil]
              omega

/-- When the transmitted body is a mapping — as in every command dispatcher —
the swapped-argument retry dies on `self.thermostats[body]` before issuing a
request, so at most ONE PUT is ever transmitted. -/
theorem make_request_countPut_obj_body (fuel : ℕ) (s : Session)
    (index : JVal) (bd : Dict) (lma : JVal) (retry_count : ℕ) (tr : List HResp) :
    countPut (make_request fuel s index (.obj bd) lma retry_count tr).log ≤ 1 := by
  cases fuel with
  | zero => simp [make_request, countPut]
  | succ fuel =>
    simp only [make_request]
    cases hls : listSubscr s.thermostats index with
    | error e => simp [countPut]
    | ok entry =>
      dsimp only
      cases hf : getField entry "id" with
      | none => simp [countPut]
      | some idv =>
        dsimp only
        cases tr with
        | nil => rw [countPut_putDevice, countPut_nil]
        | cons h rest =>
          cases h with
          | exn => rw [countPut_putDevice, countPut_nil]
          | ok rbody => rw [countPut_putDevice, countPut_nil]
          | err code ebody =>
            dsimp only
            by_cases hc : code = 401 ∧ retry_count = 0
            · rw [if_pos hc]
              cases hsub : subscr ebody "error" with
              | error e => rw [countPut_putDevice, countPut_nil]
              | ok ev =>
                dsimp only
                by_cases hev : ev = JVal.str "authorization_expired"
                · rw [if_pos hev]
                  cases ho : (refresh_tokens s rest).out with
                  | ret v =>
                    by_cases hv : truthy v = true
                    · simp only [hv, if_true]
                      rw [countPut_append, countPut_putDevice,
                        refresh_tokens_countPut, make_request_obj_index_log,
                        countPut_nil]
                    · simp only [Bool.eq_false_iff.2 hv, Bool.false_eq_true,
                        if_false]
                      rw [countPut_putDevice, refresh_tokens_countPut]
                  | exc e => rw [countPut_putDevice, refresh_tokens_countPut]
                  | stuck => rw [countPut_putDevice, refresh_tokens_countPut]
                · rw [if_neg hev, countPut_putDevice, countPut_nil]
            · rw [if_neg hc, countPut_putDevice, countPut_nil]

/-- C1, counterexample.  On `trGet3`, one `get_thermostats()` invocation
issues THREE `GET /devices` attempts (the claim allows at most 2): each
failed attempt whose refresh succeeds is retried, with no retry counter.
And on `trRetry`, `make_request` receives authorization-expired, refreshes
successfully, and the single permitted retry then raises `TypeError` (the
swapped-argument recursive call indexes the cache with the body dict) instead
of returning an absent result. -/
theorem claim1_counterexample :
    countGetDevices (get_thermostats 7 sessA trGet3).log = 3 ∧
    (make_request 2 sessB (.num 0) (.obj [("mode", .str "cool")])
        (.str "set HVAC mode") 0 trRetry).out = .exc .typeError := by
  constructor
  · rfl
  · rfl

/-- C1, amended.  `make_request` is bounded: at most 2 PUT attempts ever, and
at most 1 when the transmitted body is a mapping (every command dispatcher
passes one) because the swapped-argument retry raises before transmitting.
`get_thermostats` (and `get_thermostat_info`, whose retry loop is identical)
has NO two-attempt bound: it retries after every successful refresh, so its
attempt count grows with the transport trace — bounded only by
`trace length / 2 + 1`, each extra attempt consuming a failed GET plus a
successful refresh. -/
theorem claim1_amended_theorem :
    (∀ (fuel : ℕ) (s : Session) (index : JVal) (bd : Dict) (lma : JVal)
        (rc : ℕ) (tr : List HResp),
      countPut (make_request fuel s index (.obj bd) lma rc tr).log ≤ 1) ∧
    (∀ (fuel : ℕ) (s : Session) (index body lma : JVal) (rc : ℕ)
        (tr : List HResp),
      countPut (make_request fuel s index body lma rc tr).log ≤ 2) ∧
    (∀ (fuel : ℕ) (s : Session) (tr : List HResp),
      countGetDevices (get_thermostats fuel s tr).log ≤ tr.length / 2 + 1) :=
  ⟨fun fuel s index bd lma rc tr =>
      make_request_countPut_obj_body fuel s index bd lma rc tr,
   fun fuel s index body lma rc tr =>
      make_request_countPut_le_two fuel s index body lma rc tr,
   fun fuel s tr => get_thermostats_attempts_le fuel s tr⟩

/-- C2, counterexample.  Two expected failure modes raise instead of
returning an absent result: a transport failure during `refresh_tokens`
propagates `RequestException` (the POST is not wrapped in try/except), and a
`get_thermostats` whose per-device detail fetch fails executes
`None['name'] = ...`, raising `TypeError`. -/
theorem claim2_counterexample :
    (refresh_tokens sessA [.exn]).out = .exc .requestException ∧
    (get_thermostats 2 sessA trDetailFail).out = .exc .typeError := by
  constructor
  · rfl
  · rfl

/-- C2, amended.  The guarded failure modes do return absent results — a
transport failure on the (try/except-guarded) device GETs yields `None`, a
resolvable `make_request` yields `None` on transport failure and on any
non-retryable error status, and a failed refresh followed by a failed
re-login yields `None` — but the claim's universal "never raises" is false:
`refresh_tokens` propagates transport exceptions, `get_thermostats` raises
`TypeError` when a detail fetch fails, the `make_request` retry raises
`TypeError` on its swapped arguments, and missing keys in collaborator JSON
raise `KeyError` (see the counterexample). -/
theorem claim2_amended_theorem :
    (∀ (fuel : ℕ) (s : Session) (tr : List HResp),
      (get_thermostats (fuel + 1) s (.exn :: tr)).out = .ret .null) ∧
    (∀ (fuel : ℕ) (s : Session) (idv : JVal) (tr : List HResp),
      (get_thermostat_info (fuel + 1) s idv (.exn :: tr)).out = .ret .null) ∧
    (∀ (fuel : ℕ) (s : Session) (index body lma : JVal) (rc : ℕ)
        (tr : List HResp) (entry : Dict) (idv : JVal),
      listSubscr s.thermostats index = .ok entry →
      getField entry "id" = some idv →
      (make_request (fuel + 1) s index body lma rc (.exn :: tr)).out
        = .ret .null) ∧
    (∀ (fuel : ℕ) (s : Session) (index body lma : JVal) (rc : ℕ)
        (code : ℕ) (ebody : JVal) (tr : List HResp) (entry : Dict) (idv : JVal),
      listSubscr s.thermostats index = .ok entry →
      getField entry "id" = some idv →
      ¬ (code = 401 ∧ rc = 0) →
      (make_request (fuel + 1) s index body lma rc (.err code ebody :: tr)).out
        = .ret .null) ∧
    (∀ (s : Session) (c1 c2 : ℕ) (b1 b2 : JVal) (tr : List HResp),
      (refresh_tokens s (.err c1 b1 :: .err c2 b2 :: tr)).out = .ret .null) := by
  refine ⟨fun fuel s tr => rfl, fun fuel s idv tr => rfl, ?_, ?_, fun s c1 c2 b1 b2 tr => rfl⟩
  · intro fuel s index body lma rc tr entry idv hls hf
    simp only [make_request, hls, hf]
  · intro fuel s index body lma rc code ebody tr entry idv hls hf hc
    simp only [make_request, hls, hf]
    rw [if_neg hc]

/-- C2, witness for the amended theorem: a resolvable `make_request` hitting
a plain 500 returns `None`. -/
theorem claim2_amended_witness :
    (make_request 1 sessB (.num 0) (.obj []) (.str "set HVAC mode") 0
        [.err 500 (.obj [])]).out = .ret .null :=
  claim2_amended_theorem.2.2.2.1 0 sessB (.num 0) (.obj []) (.str "set HVAC mode")
    0 500 (.obj []) [] sessB.thermostats[0]! (.str "dev1") rfl rfl
    (by intro hc; exact absurd hc.1 (by decide))

theorem length_le_runCalls (calls : List ((JVal → Dict) × List Entry))
    (cs : List Dict) : cs.length ≤ (runCalls calls cs).length := by
  induction calls generalizing cs with
  | nil => exact Nat.le_refl _
  | cons p ps ih =>
    exact Nat.le_trans (length_le_runListDevices p.1 p.2 cs)
      (ih (runListDevices p.1 p.2 cs))

theorem nodup_ids_runCalls (calls : List ((JVal → Dict) × List Entry))
    (cs : List Dict) (h : (ids cs).Nodup) : (ids (runCalls calls cs)).Nodup := by
  induction calls generalizing cs with
  | nil => exact h
  | cons p ps ih =>
    exact ih (runListDevices p.1 p.2 cs) (nodup_ids_runListDevices p.1 p.2 cs h)

/-- C3: across any sequence of successful `get_thermostats` passes the cache
length never decreases and an id once present is never removed; within one
pass, a cache position whose id occurs in the remote list ends holding
exactly the merged payload of the last remote occurrence (whole-entry
replacement, in place), and every remote device is present afterwards
(appended when its id was absent). -/
theorem claim3_theorem :
    (∀ (calls : List ((JVal → Dict) × List Entry)) (cs : List Dict),
      cs.length ≤ (runCalls calls cs).length) ∧
    (∀ (d : JVal → Dict) (r : List Entry) (cs : List Dict) (x : JVal),
      hasId x cs = true → hasId x (runListDevices d r cs) = true) ∧
    (∀ (d : JVal → Dict) (r : List Entry) (cs : List Dict) (j : ℕ)
        (x : Option JVal) (e : Entry),
      (ids cs)[j]? = some x → lastOcc r x = some e →
      (runListDevices d r cs)[j]? = some (mkInfo (d e.id) e.name e.id)) ∧
    (∀ (d : JVal → Dict) (r : List Entry) (cs : List Dict) (e : Entry),
      e ∈ r → hasId e.id (runListDevices d r cs) = true) := by
  refine ⟨length_le_runCalls, hasId_runListDevices_of_hasId, ?_,
    hasId_runListDevices_of_mem⟩
  intro d r cs j x e hx hlast
  have hj : j < (ids cs).length := by
    rw [List.getElem?_eq_some] at hx
    exact hx.1
  obtain ⟨t, ht, _⟩ := ids_runListDevices d r cs
  have hx2 : (ids (runListDevices d r cs))[j]? = some x := by
    rw [ht, List.getElem?_append, if_pos hj]
    exact hx
  exact runListDevices_getElem?_final d r cs j x e hx2 hlast

/-- C3, witness: on a one-device cache whose id reappears in the remote
list, the id is still present after the pass. -/
theorem claim3_witness :
    hasId (.str "dev1")
      (runListDevices (fun _ => [("tempIndoor", .num 21)])
        [⟨.str "dev1", .str "Main"⟩] sessB.thermostats) = true :=
  claim3_theorem.2.1 (fun _ => [("tempIndoor", .num 21)])
    [⟨.str "dev1", .str "Main"⟩] sessB.thermostats (.str "dev1") rfl

/-- C4: re-running the reconciliation pass with the same remote list and the
same per-device details leaves the cache unchanged — the upsert pass is
idempotent for every starting cache. -/
theorem claim4_theorem (d : JVal → Dict) (r : List Entry) (cs : List Dict) :
    runListDevices d r (runListDevices d r cs) = runListDevices d r cs := by
  apply runListDevices_of_fixed d r (runListDevices d r cs) (runListDevices d r cs)
    rfl
  · intro e he
    exact hasId_runListDevices_of_mem d r cs e he
  · intro j x hx
    constructor
    · intro e hle
      exact runListDevices_getElem?_final d r cs j x e hx hle
    · intro _
      rfl

/-- C10: starting from the empty cache, after any sequence of successful
passes the cache ids are pairwise distinct; and in every single pass the old
entries keep their positions (ids are a preserved prefix) while the appended
ids form a sublist of the remote ids, i.e. new devices are appended after
all existing entries in remote-list order. -/
theorem claim10_theorem :
    (∀ calls : List ((JVal → Dict) × List Entry),
      (ids (runCalls calls [])).Nodup) ∧
    (∀ (d : JVal → Dict) (r : List Entry) (cs : List Dict),
      ∃ t, ids (runListDevices d r cs) = ids cs ++ t ∧
        t.Sublist (r.map (fun e => some e.id))) :=
  ⟨fun calls => nodup_ids_runCalls calls [] List.nodup_nil,
   ids_runListDevices_sublist⟩

/-- C5, counterexample.  `set_thermostat_schedule` transmits its heating set
point exactly as passed: with heating 1.23 the fieldset holds 1.23, which is
not equal to its one-decimal rounding. -/
theorem claim5_counterexample :
    getField (set_thermostat_schedule_body "schedMonPart1" (.num 1)
        (.bool true) (.str "wakeup") (.num (123/100)) (.num (25/10)))
      "schedMonPart1hsp" = some (.num (123/100)) ∧
    ¬ round1 (123/100) = 123/100 := by
  constructor
  · rfl
  · unfold round1
    rw [round_eq]
    norm_num

/-- C5, amended.  Rounding to one decimal is applied exactly here: both set
points of `set_temp_hold` and `set_permanent_hold` (supplied or defaulted),
and the DEFAULTED set points of `set_away`.  Caller-supplied `set_away`
values and all values of `set_humidity` and `set_thermostat_schedule` are
transmitted unrounded. -/
theorem claim5_amended_theorem :
    (∀ (cs : List Dict) (index : ℕ) (cq hq : ℚ) (hd : JVal),
      set_temp_hold_body cs index (some (.num cq)) (some (.num hq)) (some hd) =
        .ok [("hspHome", .num (round1 hq)), ("cspHome", .num (round1 cq)),
          ("schedOverride", .num 1), ("schedOverrideDuration", hd)]) ∧
    (∀ (cs : List Dict) (index : ℕ) (cq hq : ℚ),
      set_permanent_hold_body cs index (some (.num cq)) (some (.num hq)) =
        .ok [("hspHome", .num (round1 hq)), ("cspHome", .num (round1 cq)),
          ("schedOverride", .num 0), ("schedEnabled", .bool false)]) ∧
    (∀ (cs : List Dict) (index : ℕ) (mode ht ct : JVal),
      set_away_body cs index mode (some ht) (some ct) =
        .ok [("geofencingAway", mode), ("hspAway", ht), ("cspAway", ct)]) ∧
    (∀ (cs : List Dict) (index : ℕ) (mode : JVal) (entry : Dict) (hq cq : ℚ),
      cs[index]? = some entry →
      getField entry "hspAway" = some (.num hq) →
      getField entry "cspAway" = some (.num cq) →
      set_away_body cs index mode none none =
        .ok [("geofencingAway", mode), ("hspAway", .num (round1 hq)),
          ("cspAway", .num (round1 cq))]) ∧
    (∀ (cs : List Dict) (index : ℕ) (lo hi : JVal),
      set_humidity_body cs index (some lo) (some hi) =
        .ok [("dehumSP", hi), ("humSP", lo)]) ∧
    (∀ (pfx : String) (start enable label heating cooling : JVal),
      set_thermostat_schedule_body pfx start enable label heating cooling =
        [(pfx ++ "Time", start), (pfx ++ "Enabled", enable),
         (pfx ++ "Label", label), (pfx ++ "hsp", heating),
         (pfx ++ "csp", cooling)]) := by
  refine ⟨fun cs index cq hq hd => rfl, fun cs index cq hq => rfl,
    fun cs index mode ht ct => rfl, ?_, fun cs index lo hi => rfl,
    fun pfx start enable label heating cooling => rfl⟩
  intro cs index mode entry hq cq hidx hh hc
  simp [set_away_body, cachedField, hidx, hh, hc, roundJ,
    Except.bind, Bind.bind, Functor.map, Except.map, pure, Except.pure]

/-- C5, witness for the amended theorem: the defaulted `set_away` set points
come out rounded. -/
theorem claim5_amended_witness :
    set_away_body sessB.thermostats 0 (.bool true) none none =
      .ok [("geofencingAway", .bool true), ("hspAway", .num (round1 17)),
        ("cspAway", .num (round1 27))] :=
  claim5_amended_theorem.2.2.2.1 sessB.thermostats 0 (.bool true)
    sessB.thermostats[0]! 17 27 rfl rfl rfl

/-- C6: `set_temp_hold(index)` with nothing supplied defaults from the cached
entry — `hspHome` and `cspHome` rounded to one decimal, and
`schedOverrideDuration` passed through exactly. -/
theorem claim6_theorem (cs : List Dict) (index : ℕ) (entry : Dict)
    (hq cq : ℚ) (dv : JVal)
    (hidx : cs[index]? = some entry)
    (hh : getField entry "hspHome" = some (.num hq))
    (hc : getField entry "cspHome" = some (.num cq))
    (hd : getField entry "schedOverrideDuration" = some dv) :
    set_temp_hold_body cs index none none none =
      .ok [("hspHome", .num (round1 hq)), ("cspHome", .num (round1 cq)),
        ("schedOverride", .num 1), ("schedOverrideDuration", dv)] := by
  simp [set_temp_hold_body, cachedField, hidx, hh, hc, hd, roundJ,
    Except.bind, Bind.bind, Functor.map, Except.map, pure, Except.pure]

/-- C6, witness at the concrete one-device cache. -/
theorem claim6_witness :
    set_temp_hold_body sessB.thermostats 0 none none none =
      .ok [("hspHome", .num (round1 20)), ("cspHome", .num (round1 25)),
        ("schedOverride", .num 1), ("schedOverrideDuration", .num 60)] :=
  claim6_theorem sessB.thermostats 0 sessB.thermostats[0]! 20 25 (.num 60)
    rfl rfl rfl rfl

/-- C7: given a populated cache entry, `set_permanent_hold(index)` builds
exactly the four-key fieldset with `schedOverride 0` and `schedEnabled
false`, and `resume_program` builds exactly
`{schedEnabled: true, schedOverride: 0, geofencingAway: false}`. -/
theorem claim7_theorem :
    (∀ (cs : List Dict) (index : ℕ) (entry : Dict) (hq cq : ℚ),
      cs[index]? = some entry →
      getField entry "hspHome" = some (.num hq) →
      getField entry "cspHome" = some (.num cq) →
      set_permanent_hold_body cs index none none =
        .ok [("hspHome", .num (round1 hq)), ("cspHome", .num (round1 cq)),
          ("schedOverride", .num 0), ("schedEnabled", .bool false)]) ∧
    resume_program_body =
      [("schedEnabled", .bool true), ("schedOverride", .num 0),
       ("geofencingAway", .bool false)] := by
  refine ⟨?_, rfl⟩
  intro cs index entry hq cq hidx hh hc
  simp [set_permanent_hold_body, cachedField, hidx, hh, hc, roundJ,
    Except.bind, Bind.bind, Functor.map, Except.map, pure, Except.pure]

/-- C7, witness at the concrete one-device cache. -/
theorem claim7_witness :
    set_permanent_hold_body sessB.thermostats 0 none none =
      .ok [("hspHome", .num (round1 20)), ("cspHome", .num (round1 25)),
        ("schedOverride", .num 0), ("schedEnabled", .bool false)] :=
  claim7_theorem.1 sessB.thermostats 0 sessB.thermostats[0]! 20 25 rfl rfl rfl

/-- C8, counterexample.  `config_from_file(filename, {})` takes the READ
branch (`if config:` is false for an empty mapping), so "writing" the empty
mapping over an existing file and reading back yields the old stored mapping,
not the written one. -/
theorem claim8_counterexample :
    (config_from_file
        ((config_from_file fsW "daikinskyport.conf" (some [])).2)
        "daikinskyport.conf" none).1
      = .obj [("EMAIL", .str "user@example.com")] ∧
    JVal.obj [("EMAIL", .str "user@example.com")] ≠ .obj [] := by
  constructor
  · rfl
  · intro h
    injection h with h2
    cases h2

/-- C8, amended.  The round trip holds for every NONEMPTY mapping (a truthy
`config` takes the write branch), and reading a filename with no stored file
yields the empty mapping. -/
theorem claim8_amended_theorem :
    (∀ (fs : String → Option Dict) (fn : String) (cfg : Dict),
      cfg ≠ [] →
      (config_from_file ((config_from_file fs fn (some cfg)).2) fn none).1
        = .obj cfg) ∧
    (∀ (fs : String → Option Dict) (fn : String),
      fs fn = none → (config_from_file fs fn none).1 = .obj []) := by
  constructor
  · intro fs fn cfg hne
    have hemp : cfg.isEmpty = false := by
      cases cfg with
      | nil => exact absurd rfl hne
      | cons a t => rfl
    simp [config_from_file, hemp]
  · intro fs fn hnone
    simp [config_from_file, hnone]

/-- C8, witness: a nonempty credential mapping written to a fresh name reads
back equal, and reading a missing file yields the empty mapping. -/
theorem claim8_amended_witness :
    (config_from_file
        ((config_from_file fsW "other.conf"
            (some [("EMAIL", .str "a@b.c")])).2) "other.conf" none).1
      = .obj [("EMAIL", .str "a@b.c")] ∧
    (config_from_file fsW "missing.conf" none).1 = .obj [] :=
  ⟨claim8_amended_theorem.1 fsW "other.conf" [("EMAIL", .str "a@b.c")]
      (by intro h; cases h),
   claim8_amended_theorem.2 fsW "missing.conf" (by decide)⟩

/-- C9: no command dispatcher mutates the device cache — each builds its
fieldset (reading the cache for defaults) and forwards to `make_request`,
which never writes `self.thermostats` on any path (success, transport
failure, non-ok status, refresh, retry). -/
theorem claim9_theorem :
    (∀ (fuel : ℕ) (s : Session) (index : ℕ) (m : JVal) (tr : List HResp),
      (set_hvac_mode fuel s index m tr).sess.thermostats = s.thermostats) ∧
    (∀ (fuel : ℕ) (s : Session) (index : ℕ) (pfx : String)
        (a b c d e : JVal) (tr : List HResp),
      (set_thermostat_schedule fuel s index pfx a b c d e tr).sess.thermostats
        = s.thermostats) ∧
    (∀ (fuel : ℕ) (s : Session) (index : ℕ) (m : JVal) (tr : List HResp),
      (set_fan_mode fuel s index m tr).sess.thermostats = s.thermostats) ∧
    (∀ (fuel : ℕ) (s : Session) (index : ℕ) (m : JVal) (tr : List HResp),
      (set_fan_speed fuel s index m tr).sess.thermostats = s.thermostats) ∧
    (∀ (fuel : ℕ) (s : Session) (index : ℕ) (m : JVal) (tr : List HResp),
      (set_fan_clean fuel s index m tr).sess.thermostats = s.thermostats) ∧
    (∀ (fuel : ℕ) (s : Session) (index : ℕ) (a b c : Option JVal)
        (tr : List HResp),
      (set_temp_hold fuel s index a b c tr).sess.thermostats = s.thermostats) ∧
    (∀ (fuel : ℕ) (s : Session) (index : ℕ) (a b : Option JVal)
        (tr : List HResp),
      (set_permanent_hold fuel s index a b tr).sess.thermostats
        = s.thermostats) ∧
    (∀ (fuel : ℕ) (s : Session) (index : ℕ) (m : JVal) (a b : Option JVal)
        (tr : List HResp),
      (set_away fuel s index m a b tr).sess.thermostats = s.thermostats) ∧
    (∀ (fuel : ℕ) (s : Session) (index : ℕ) (tr : List HResp),
      (resume_program fuel s index tr).sess.thermostats = s.thermostats) ∧
    (∀ (fuel : ℕ) (s : Session) (index : ℕ) (a b c d : JVal)
        (tr : List HResp),
      (set_fan_schedule fuel s index a b c d tr).sess.thermostats
        = s.thermostats) ∧
    (∀ (fuel : ℕ) (s : Session) (index : ℕ) (a b c : JVal) (tr : List HResp),
      (set_night_mode fuel s index a b c tr).sess.thermostats
        = s.thermostats) ∧
    (∀ (fuel : ℕ) (s : Session) (index : ℕ) (a b : Option JVal)
        (tr : List HResp),
      (set_humidity fuel s index a b tr).sess.thermostats = s.thermostats) := by
  refine ⟨?_, ?_, ?_, ?_, ?_, ?_, ?_, ?_, ?_, ?_, ?_, ?_⟩
  · intro fuel s index m tr
    exact make_request_thermostats _ _ _ _ _ _ _
  · intro fuel s index pfx a b c d e tr
    exact make_request_thermostats _ _ _ _ _ _ _
  · intro fuel s index m tr
    exact make_request_thermostats _ _ _ _ _ _ _
  · intro fuel s index m tr
    exact make_request_thermostats _ _ _ _ _ _ _
  · intro fuel s index m tr
    exact make_request_thermostats _ _ _ _ _ _ _
  · intro fuel s index a b c tr
    unfold set_temp_hold
    cases set_temp_hold_body s.thermostats index a b c with
    | error e => rfl
    | ok body => exact make_request_thermostats _ _ _ _ _ _ _
  · intro fuel s index a b tr
    unfold set_permanent_hold
    cases set_permanent_hold_body s.thermostats index a b with
    | error e => rfl
    | ok body => exact make_request_thermostats _ _ _ _ _ _ _
  · intro fuel s index m a b tr
    unfold set_away
    cases set_away_body s.thermostats index m a b with
    | error e => rfl
    | ok body => exact make_request_thermostats _ _ _ _ _ _ _
  · intro fuel s index tr
    exact make_request_thermostats _ _ _ _ _ _ _
  · intro fuel s index a b c d tr
    exact make_request_thermostats _ _ _ _ _ _ _
  · intro fuel s index a b c tr
    exact make_request_thermostats _ _ _ _ _ _ _
  · intro fuel s index a b tr
    unfold set_humidity
    cases set_humidity_body s.thermostats index a b with
    | error e => rfl
    | ok body => exact make_request_thermostats _ _ _ _ _ _ _
